import Mathlib

/-!
Verification of the B-Client coordinator against its specification.

Each section shallowly embeds one subsystem of the Python source:

* `ClusterVerification` — `services/cluster_verification.py`
* `Dispatcher`          — `b-client-new/services/nodeManager.py` (RPC table)
* `Fanout`              — `b-client-new/services/sync_manager.py`
* `Registry`            — `services/websocket_client.py` (connection pools)
* `Logout`              — `routes/bind_routes.py` and the logout barrier
* `Placement`           — `b-client-new/services/nodeManager.py` (assignment)

Pure functions of the source become Lean functions; stateful handlers
become step functions on explicit state records.  RPC interactions with
remote agents are parametrised by an outcome value per sub-RPC (reply,
timeout, error), matching exactly how each Python function maps those
outcomes to return values.
-/

namespace ClusterVerification

/-- A sync-data record exchanged during attestation: a Python dict of
field names to values, modelled as an association list in insertion
order. -/
abbrev Rec := List (String × String)

/-- Python dict lookup (`d.get(k)` / `d[k]` / `k in d`): the value of the
first matching key. -/
def pyGet (r : Rec) (k : String) : Option String :=
  match r with
  | [] => none
  | (k', v) :: rest => if k' = k then some v else pyGet rest k

/-- `_compare_records` (cluster_verification.py:661-701): every key of the
reference record must be present in the client record with an equal value,
and the client record must have no key outside the reference record. -/
def compareRecords (reference client : Rec) : Bool :=
  (reference.all fun kv => pyGet client kv.1 == some kv.2) &&
  (client.all fun kv => (pyGet reference kv.1).isSome)

/-- Keys of a record, in order. -/
def recKeys (r : Rec) : List String := r.map Prod.fst

/-- The batch data a witness node can return: `batch_id`, `record_count`
and the first record of the batch. -/
structure BatchData where
  batch_id : String
  record_count : Nat
  first_record : Rec
  deriving DecidableEq

/-- Outcome of the 15-second `cluster_verification_query` RPC to one
witness node, as seen by `_send_node_query`. -/
inductive WitnessOutcome
  | replyBatch (b : BatchData)  -- successful response carrying batch data
  | replyNoBatch                -- response with `success = False`
  | timeout                     -- `asyncio.TimeoutError` after 15 s
  | rpcError                    -- exception while sending
  deriving DecidableEq

/-- `_send_node_query` (cluster_verification.py:263-344): a timeout or a
send error returns `None`; a routed response is returned as stored by
`handle_verification_response` (either `success` with `batch_data` or a
bare `success = False`). -/
def sendNodeQuery : WitnessOutcome → Option (Option BatchData)
  | .replyBatch b => some (some b)
  | .replyNoBatch => some none
  | .timeout => none
  | .rpcError => none

/-- `_query_node_for_batch` (cluster_verification.py:209-261): a node
yields a batch only when the response is successful and the batch data
carries a non-empty `batch_id`. -/
def queryNodeForBatch (o : WitnessOutcome) : Option BatchData :=
  match sendNodeQuery o with
  | some (some b) => if b.batch_id ≠ "" then some b else none
  | some none => none
  | none => none

/-- `_query_channel_for_valid_batch` (cluster_verification.py:125-172):
query each non-joiner channel node in order; the first positive response
wins; nodes that fail, time out or return nothing are skipped. -/
def queryChannelForValidBatch : List WitnessOutcome → Option BatchData
  | [] => none
  | o :: rest =>
    match queryNodeForBatch o with
    | some b => some b
    | none => queryChannelForValidBatch rest

/-- Outcome of the 15-second `cluster_verification_request` RPC to the
joiner, as seen by `_send_client_verification_request`. -/
inductive JoinerOutcome
  | replyRecord (r : Rec)  -- successful response carrying the record
  | replyFail              -- response routed with `success = False`
  | timeout                -- `asyncio.TimeoutError` after 15 s
  | rpcError               -- exception while sending, or connection never ready
  deriving DecidableEq

/-- Response stored for the joiner by `handle_verification_response`. -/
structure ClientResponse where
  success : Bool
  record : Option Rec
  deriving DecidableEq

/-- `_send_client_verification_request` (cluster_verification.py:542-622):
timeouts and errors return `None`. -/
def sendClientVerificationRequest : JoinerOutcome → Option ClientResponse
  | .replyRecord r => some ⟨true, some r⟩
  | .replyFail => some ⟨false, none⟩
  | .timeout => none
  | .rpcError => none

/-- Result of `_request_client_verification` (cluster_verification.py:
401-479): fail on no response, unsuccessful response or missing record;
otherwise the verdict of `compareRecords`. -/
def requestClientVerification (reference : Rec) (o : JoinerOutcome) : Bool :=
  match sendClientVerificationRequest o with
  | none => false
  | some resp =>
    if !resp.success then false
    else
      match resp.record with
      | none => false
      | some client => compareRecords reference client

/-- Result record of `initiate_cluster_verification`. -/
structure VerificationResult where
  success : Bool
  is_new_user : Bool
  verification_passed : Bool
  deriving DecidableEq

/-- `initiate_cluster_verification` (cluster_verification.py:49-123):
no valid batch in the channel means the joiner is treated as a new user
and verification passes vacuously; otherwise the joiner is asked for its
first record of the chosen batch and the comparison decides. -/
def initiateClusterVerification (witnesses : List WitnessOutcome)
    (joiner : JoinerOutcome) : VerificationResult :=
  match queryChannelForValidBatch witnesses with
  | none => ⟨true, true, true⟩
  | some b =>
    if requestClientVerification b.first_record joiner then ⟨true, false, true⟩
    else ⟨false, false, false⟩

/-- The session-push gate of `send_session_if_appropriate`
(websocket_client.py:1828-1840): the cookie frame is pushed only when the
verification result has both `success` and `verification_passed`. -/
def sessionPushAllowed (r : VerificationResult) : Bool :=
  r.success && r.verification_passed

/-- pyGet finds a member of the record. -/
theorem pyGet_mem {r : Rec} {k v : String} (h : pyGet r k = some v) : (k, v) ∈ r := by
  induction r with
  | nil => simp [pyGet] at h
  | cons hd tl ih =>
    by_cases hk : hd.1 = k
    · simp only [pyGet] at h
      rw [if_pos hk] at h
      have hv : v = hd.2 := by
        injection h with h
        exact h.symm
      subst hv
      subst hk
      exact Prod.mk.eta ▸ List.mem_cons_self hd tl
    · simp only [pyGet] at h
      rw [if_neg hk] at h
      exact List.mem_cons_of_mem _ (ih h)

/-- pyGet returns some value exactly on present keys. -/
theorem pyGet_isSome_iff {r : Rec} {k : String} :
    (pyGet r k).isSome = true ↔ k ∈ recKeys r := by
  induction r with
  | nil => simp [pyGet, recKeys]
  | cons hd tl ih =>
    by_cases hk : hd.1 = k
    · simp [pyGet, hk, recKeys]
    · simp only [pyGet, if_neg hk, recKeys, List.map_cons, List.mem_cons]
      rw [ih]
      simp [recKeys]
      intro he
      exact absurd he.symm hk

/-- With no duplicate keys, membership determines pyGet. -/
theorem pyGet_of_mem {r : Rec} (hnd : (recKeys r).Nodup) {k v : String}
    (h : (k, v) ∈ r) : pyGet r k = some v := by
  induction r with
  | nil => simp at h
  | cons hd tl ih =>
    rcases List.mem_cons.mp h with h1 | h1
    · subst h1
      simp [pyGet]
    · have hk : hd.1 ≠ k := by
        intro he
        have : k ∈ recKeys tl := List.mem_map_of_mem Prod.fst h1
        rw [recKeys, List.map_cons] at hnd
        exact (List.nodup_cons.mp hnd).1 (he ▸ this)
      simp only [pyGet, if_neg hk]
      exact ih (List.nodup_cons.mp (by rwa [recKeys, List.map_cons] at hnd)).2 h1

/-- Characterisation of `_compare_records` on well-formed (duplicate-free)
records: the comparison succeeds exactly when the two records are equal
as sets of key-value pairs. -/
theorem compareRecords_iff_set_equal {reference client : Rec}
    (h1 : (recKeys reference).Nodup) (h2 : (recKeys client).Nodup) :
    compareRecords reference client = true ↔
      (∀ kv : String × String, kv ∈ reference ↔ kv ∈ client) := by
  constructor
  · intro h kv
    have hall := (Bool.and_eq_true _ _).mp h
    have hfwd := List.all_eq_true.mp hall.1
    have hbwd := List.all_eq_true.mp hall.2
    constructor
    · intro hm
      have := hfwd kv hm
      exact pyGet_mem (by simpa using this)
    · intro hm
      have hks : (pyGet reference kv.1).isSome = true := by simpa using hbwd kv hm
      rcases Option.isSome_iff_exists.mp hks with ⟨v', hv'⟩
      have hmem : (kv.1, v') ∈ reference := pyGet_mem hv'
      have hcl : pyGet client kv.1 = some v' := by simpa using hfwd _ hmem
      have hcl2 : pyGet client kv.1 = some kv.2 := pyGet_of_mem h2 (by
        rcases kv with ⟨a, b⟩
        exact hm)
      have : v' = kv.2 := by
        rw [hcl] at hcl2
        exact (Option.some.injEq _ _ ▸ hcl2)
      subst this
      rcases kv with ⟨a, b⟩
      exact hmem
  · intro h
    apply (Bool.and_eq_true _ _).mpr
    constructor
    · apply List.all_eq_true.mpr
      intro kv hm
      have : kv ∈ client := (h kv).mp hm
      have := pyGet_of_mem h2 (show (kv.1, kv.2) ∈ client by simpa using this)
      simpa using this
    · apply List.all_eq_true.mpr
      intro kv hm
      have : kv ∈ reference := (h kv).mpr hm
      have hk : kv.1 ∈ recKeys reference := List.mem_map_of_mem Prod.fst this
      simpa using pyGet_isSome_iff.mpr hk

/-- C1. For every attestation run that reports success while a witness
batch was found, the joiner replied with a record, and that record and the
witness's first record of the chosen batch are set-equal by keys and by
values: each key-value pair of one record occurs in the other. -/
theorem attestation_success_records_set_equal
    (witnesses : List WitnessOutcome) (joiner : JoinerOutcome) (b : BatchData)
    (hw : queryChannelForValidBatch witnesses = some b)
    (hs : (initiateClusterVerification witnesses joiner).success = true)
    (hnd1 : (recKeys b.first_record).Nodup)
    (hnd2 : ∀ r, joiner = JoinerOutcome.replyRecord r → (recKeys r).Nodup) :
    ∃ client, joiner = JoinerOutcome.replyRecord client ∧
      (∀ kv : String × String, kv ∈ b.first_record ↔ kv ∈ client) := by
  by_cases hreq : requestClientVerification b.first_record joiner = true
  · cases joiner with
    | replyRecord r =>
      refine ⟨r, rfl, ?_⟩
      have hcmp : compareRecords b.first_record r = true := by
        simpa [requestClientVerification, sendClientVerificationRequest] using hreq
      exact (compareRecords_iff_set_equal hnd1 (hnd2 r rfl)).mp hcmp
    | replyFail =>
      simp [requestClientVerification, sendClientVerificationRequest] at hreq
    | timeout =>
      simp [requestClientVerification, sendClientVerificationRequest] at hreq
    | rpcError =>
      simp [requestClientVerification, sendClientVerificationRequest] at hreq
  · exfalso
    have hfalse : (initiateClusterVerification witnesses joiner).success = false := by
      simp [initiateClusterVerification, hw, hreq]
    rw [hs] at hfalse
    exact absurd hfalse (by simp)

/-- Witness for `attestation_success_records_set_equal` at a concrete run:
one witness returning a one-record batch, the joiner returning the equal
record. -/
theorem attestation_success_records_set_equal_witness :
    ∃ client,
      JoinerOutcome.replyRecord [("url", "a")] = JoinerOutcome.replyRecord client ∧
      (∀ kv : String × String, kv ∈ ([("url", "a")] : Rec) ↔ kv ∈ client) :=
  attestation_success_records_set_equal
    [WitnessOutcome.replyBatch ⟨"b1", 3, [("url", "a")]⟩]
    (JoinerOutcome.replyRecord [("url", "a")]) ⟨"b1", 3, [("url", "a")]⟩
    (by decide) (by decide) (by decide) (by intro r hr; cases hr; decide)

/-- Helper: every failing witness outcome yields no batch. -/
theorem queryNodeForBatch_none_of_failure {o : WitnessOutcome}
    (h : o = WitnessOutcome.timeout ∨ o = WitnessOutcome.rpcError ∨
      o = WitnessOutcome.replyNoBatch) : queryNodeForBatch o = none := by
  rcases h with h | h | h <;> subst h <;> rfl

/-- Helper: a channel of failing witnesses yields no batch. -/
theorem queryChannel_none_of_all_failures {witnesses : List WitnessOutcome}
    (h : ∀ o ∈ witnesses, o = WitnessOutcome.timeout ∨ o = WitnessOutcome.rpcError ∨
      o = WitnessOutcome.replyNoBatch) :
    queryChannelForValidBatch witnesses = none := by
  induction witnesses with
  | nil => rfl
  | cons o rest ih =>
    have ho := queryNodeForBatch_none_of_failure (h o (List.mem_cons_self o rest))
    have hrest := ih fun o' ho' => h o' (List.mem_cons_of_mem o ho')
    simp [queryChannelForValidBatch, ho, hrest]

/-- C2 counterexample: a run whose only attestation sub-RPC — the 15-second
witness query — times out.  The attestation result is nevertheless success
(the joiner is treated as a new user) and the session push is allowed, so a
sub-RPC timeout does not count as attestation-fail. -/
theorem attestation_witness_timeout_passes :
    initiateClusterVerification [WitnessOutcome.timeout] JoinerOutcome.replyFail =
      ⟨true, true, true⟩ ∧
    sessionPushAllowed
      (initiateClusterVerification [WitnessOutcome.timeout] JoinerOutcome.replyFail) =
      true := by
  exact ⟨rfl, rfl⟩

/-- C2 as amended.  When a witness batch was found, a timeout or RPC error
on the joiner-side verification request makes the attestation fail and
blocks the session push; witness-side timeouts and RPC errors are instead
treated as the witness having no valid batch, so when every witness query
fails the attestation passes vacuously and the push is allowed. -/
theorem attestation_rpc_failure_behaviour :
    (∀ (witnesses : List WitnessOutcome) (joiner : JoinerOutcome) (b : BatchData),
      queryChannelForValidBatch witnesses = some b →
      (joiner = JoinerOutcome.timeout ∨ joiner = JoinerOutcome.rpcError) →
      (initiateClusterVerification witnesses joiner).success = false ∧
      sessionPushAllowed (initiateClusterVerification witnesses joiner) = false) ∧
    (∀ (witnesses : List WitnessOutcome) (joiner : JoinerOutcome),
      (∀ o ∈ witnesses, o = WitnessOutcome.timeout ∨ o = WitnessOutcome.rpcError ∨
        o = WitnessOutcome.replyNoBatch) →
      initiateClusterVerification witnesses joiner = ⟨true, true, true⟩ ∧
      sessionPushAllowed (initiateClusterVerification witnesses joiner) = true) := by
  constructor
  · intro witnesses joiner b hw hj
    have hreq : requestClientVerification b.first_record joiner = false := by
      rcases hj with hj | hj <;> subst hj <;> rfl
    constructor
    · simp [initiateClusterVerification, hw, hreq]
    · simp [sessionPushAllowed, initiateClusterVerification, hw, hreq]
  · intro witnesses joiner h
    have hw := queryChannel_none_of_all_failures h
    constructor
    · simp [initiateClusterVerification, hw]
    · simp [sessionPushAllowed, initiateClusterVerification, hw]

/-- Witness for `attestation_rpc_failure_behaviour` at concrete runs: a
joiner timeout after a found batch fails, and an all-failing witness round
passes. -/
theorem attestation_rpc_failure_behaviour_witness :
    (initiateClusterVerification
        [WitnessOutcome.replyBatch ⟨"b1", 3, [("url", "a")]⟩]
        JoinerOutcome.timeout).success = false ∧
    initiateClusterVerification [WitnessOutcome.rpcError] JoinerOutcome.replyFail =
      ⟨true, true, true⟩ :=
  ⟨(attestation_rpc_failure_behaviour.1 [WitnessOutcome.replyBatch ⟨"b1", 3, [("url", "a")]⟩]
      JoinerOutcome.timeout ⟨"b1", 3, [("url", "a")]⟩ (by decide) (Or.inl rfl)).1,
    (attestation_rpc_failure_behaviour.2 [WitnessOutcome.rpcError] JoinerOutcome.replyFail
      (by decide)).1⟩

end ClusterVerification

namespace Dispatcher

/-- State of the `asyncio.Future` of one outstanding RPC: still awaited, or
cancelled by `asyncio.wait_for` at the 30-second deadline.  A resolved
future never stays in the table because `handle_c_client_response` deletes
the entry in the same step that resolves it. -/
inductive FutureState
  | waiting
  | timedOut
  deriving DecidableEq

/-- The `pending_requests` table of `NodeManager`: request-id to future. -/
abbrev Pending := List (String × FutureState)

/-- The fields of an inbound C-Client response frame used by
`handle_c_client_response` and `_process_late_response`. -/
structure Response where
  request_id : String
  command_type : Option String
  success : Bool
  domain_id : Option String
  cluster_id : Option String
  channel_id : Option String
  deriving DecidableEq

/-- What `handle_c_client_response` (nodeManager.py:685-712) does with one
inbound response. -/
inductive RespAction
  | resolve                     -- future.set_result(response)
  | lateProcess (cmd : String)  -- _process_late_response(connection, cmd, response)
  | dropLateUnusable            -- future done but response has no success or command_type
  | dropNoPending               -- no pending request for this request_id
  deriving DecidableEq

/-- Lookup of `request_id in pending_requests`. -/
def lookupReq (p : Pending) (id : String) : Option FutureState :=
  match p with
  | [] => none
  | e :: rest => if e.1 = id then some e.2 else lookupReq rest id

/-- `del pending_requests[request_id]`. -/
def eraseReq (p : Pending) (id : String) : Pending :=
  p.filter fun e => e.1 ≠ id

/-- `handle_c_client_response` (nodeManager.py:685-712): a waiting future is
resolved; a done (timed-out) future is never resolved again — instead a
successful late reply with a command type goes to `_process_late_response`;
in both cases the entry is then deleted.  Responses without a matching (or
with an empty) request id are dropped with a warning. -/
def handleCClientResponse (p : Pending) (resp : Response) : Pending × RespAction :=
  if resp.request_id ≠ "" then
    match lookupReq p resp.request_id with
    | some FutureState.waiting => (eraseReq p resp.request_id, RespAction.resolve)
    | some FutureState.timedOut =>
      if resp.success then
        match resp.command_type with
        | some cmd => (eraseReq p resp.request_id, RespAction.lateProcess cmd)
        | none => (eraseReq p resp.request_id, RespAction.dropLateUnusable)
      else (eraseReq p resp.request_id, RespAction.dropLateUnusable)
    | none => (p, RespAction.dropNoPending)
  else (p, RespAction.dropNoPending)

/-- Value returned to the caller of `send_to_c_client`. -/
structure CallResult where
  success : Bool
  error : Option String
  deriving DecidableEq

/-- Timeout branch of `send_to_c_client` (nodeManager.py:671-676): the
caller immediately gets a Timeout failure while the pending entry is kept
in place (only its future is now cancelled) for late-response handling. -/
def timeoutStep (p : Pending) (id : String) : Pending × CallResult :=
  (p.map fun e => if e.1 = id then (e.1, FutureState.timedOut) else e,
   ⟨false, some "Timeout"⟩)

/-- Continuation triggered by `_process_late_response`
(nodeManager.py:714-753) for a late successful reply. -/
inductive LateStep
  | createCluster (domain_id : String)    -- await new_cluster_node(conn, domain_id)
  | createChannel (cluster_id : String)   -- await new_channel_node(conn, conn.domain_id, cluster_id)
  | joinChannelPool (channel_id : String) -- record channel and add head to channel_pool
  | noStep
  deriving DecidableEq

/-- `_process_late_response` (nodeManager.py:714-753): a late
`new_domain_node` reply records the domain id and continues with cluster
creation; a late `new_cluster_node` reply continues with channel creation;
a late `new_channel_node` reply completes the hierarchy. -/
def processLateResponse (cmd : String) (resp : Response) : LateStep :=
  if cmd = "new_domain_node" then
    match resp.domain_id with
    | some d => if d ≠ "" then LateStep.createCluster d else LateStep.noStep
    | none => LateStep.noStep
  else if cmd = "new_cluster_node" then
    match resp.cluster_id with
    | some c => if c ≠ "" then LateStep.createChannel c else LateStep.noStep
    | none => LateStep.noStep
  else if cmd = "new_channel_node" then
    match resp.channel_id with
    | some c => if c ≠ "" then LateStep.joinChannelPool c else LateStep.noStep
    | none => LateStep.noStep
  else LateStep.noStep

/-- Number of times a sequence of inbound responses resolves the promise of
a given request id. -/
def resolveCount (p : Pending) (rs : List Response) (id : String) : Nat :=
  match rs with
  | [] => 0
  | r :: rest =>
    let step := handleCClientResponse p r
    (if r.request_id = id ∧ step.2 = RespAction.resolve then 1 else 0) +
      resolveCount step.1 rest id

/-- Helper: erasing a request id removes it from the table. -/
theorem lookupReq_eraseReq_self (p : Pending) (id : String) :
    lookupReq (eraseReq p id) id = none := by
  induction p with
  | nil => rfl
  | cons e tl ih =>
    by_cases he : e.1 = id
    · simpa [eraseReq, List.filter_cons, he] using ih
    · simpa [eraseReq, List.filter_cons, he, lookupReq] using ih

/-- Helper: erasing one request id leaves the others untouched. -/
theorem lookupReq_eraseReq_ne (p : Pending) {id id' : String} (h : id ≠ id') :
    lookupReq (eraseReq p id') id = lookupReq p id := by
  induction p with
  | nil => rfl
  | cons e tl ih =>
    by_cases he : e.1 = id'
    · have hne : e.1 ≠ id := by
        rw [he]
        exact Ne.symm h
      simp only [lookupReq, if_neg hne]
      simpa [eraseReq, List.filter_cons, he] using ih
    · by_cases hi : e.1 = id
      · simp [eraseReq, List.filter_cons, he, lookupReq, hi, h]
      · simpa [eraseReq, List.filter_cons, he, lookupReq, hi] using ih

/-- Helper: one response handling step either leaves the table unchanged or
erases the response's own request id. -/
theorem handle_table_cases (p : Pending) (r : Response) :
    (handleCClientResponse p r).1 = p ∨
    (handleCClientResponse p r).1 = eraseReq p r.request_id := by
  by_cases hr : r.request_id ≠ ""
  · cases hfs : lookupReq p r.request_id with
    | none =>
      left
      simp [handleCClientResponse, hr, hfs]
    | some fs =>
      cases fs with
      | waiting =>
        right
        simp [handleCClientResponse, hr, hfs]
      | timedOut =>
        right
        by_cases hs : r.success <;> cases hct : r.command_type <;>
          simp [handleCClientResponse, hr, hfs, hs, hct]
  · left
    simp [handleCClientResponse, hr]

/-- Helper: a resolution step erases the entry it resolved. -/
theorem handle_resolve_erases (p : Pending) (r : Response)
    (h : (handleCClientResponse p r).2 = RespAction.resolve) :
    (handleCClientResponse p r).1 = eraseReq p r.request_id := by
  by_cases hr : r.request_id ≠ ""
  · cases hfs : lookupReq p r.request_id with
    | none => simp [handleCClientResponse, hr, hfs] at h
    | some fs =>
      cases fs with
      | waiting => simp [handleCClientResponse, hr, hfs]
      | timedOut =>
        by_cases hs : r.success <;> cases hct : r.command_type <;>
          simp [handleCClientResponse, hr, hfs, hs, hct] at h
  · simp [handleCClientResponse, hr] at h

/-- Helper: an id absent from the table stays absent. -/
theorem handle_preserves_none (p : Pending) (r : Response) (id : String)
    (h : lookupReq p id = none) :
    lookupReq (handleCClientResponse p r).1 id = none := by
  rcases handle_table_cases p r with hc | hc <;> rw [hc]
  · exact h
  · by_cases hi : id = r.request_id
    · rw [hi]
      exact lookupReq_eraseReq_self p r.request_id
    · rw [lookupReq_eraseReq_ne p hi]
      exact h

/-- Helper: an absent id is never resolved. -/
theorem resolveCount_eq_zero_of_none (rs : List Response) (p : Pending) (id : String)
    (h : lookupReq p id = none) : resolveCount p rs id = 0 := by
  induction rs generalizing p with
  | nil => rfl
  | cons r rest ih =>
    unfold resolveCount
    have hz := ih _ (handle_preserves_none p r id h)
    by_cases hid : r.request_id = id
    · have hact : (handleCClientResponse p r).2 ≠ RespAction.resolve := by
        subst hid
        by_cases hr : r.request_id ≠ ""
        · simp [handleCClientResponse, hr, h]
        · simp [handleCClientResponse, hr]
      simp [hid, hact, hz]
    · simp [hid, hz]

/-- Helper: a response sequence resolves any given request id at most once. -/
theorem resolveCount_le_one (rs : List Response) :
    ∀ (p : Pending) (id : String), resolveCount p rs id ≤ 1 := by
  induction rs with
  | nil =>
    intro p id
    exact Nat.zero_le 1
  | cons r rest ih =>
    intro p id
    by_cases hc : r.request_id = id ∧ (handleCClientResponse p r).2 = RespAction.resolve
    · have herase := handle_resolve_erases p r hc.2
      have hnone : lookupReq (handleCClientResponse p r).1 id = none := by
        rw [herase, ← hc.1]
        exact lookupReq_eraseReq_self p r.request_id
      simp [resolveCount, if_pos hc, resolveCount_eq_zero_of_none rest _ id hnone]
    · simp only [resolveCount, if_neg hc, Nat.zero_add]
      exact ih _ id

/-- C4. For every request id there is at most one promise resolution; a
promise whose future already timed out is never resolved by a late reply —
a successful late reply carrying a command type is handed to the
dispatcher's late-handler instead, and a late `new_domain_node` reply still
advances hierarchy creation to the cluster step — while the caller of
`send_to_c_client` received the Timeout failure at the 30-second deadline
and the pending entry was kept in place. -/
theorem req_id_at_most_one_resolution :
    (∀ (p : Pending) (rs : List Response) (id : String), resolveCount p rs id ≤ 1) ∧
    (∀ (p : Pending) (r : Response),
      lookupReq p r.request_id = some FutureState.timedOut →
      (handleCClientResponse p r).2 ≠ RespAction.resolve) ∧
    (∀ (p : Pending) (r : Response) (cmd : String),
      lookupReq p r.request_id = some FutureState.timedOut →
      r.request_id ≠ "" → r.success = true → r.command_type = some cmd →
      (handleCClientResponse p r).2 = RespAction.lateProcess cmd) ∧
    (∀ (r : Response) (d : String), r.domain_id = some d → d ≠ "" →
      processLateResponse "new_domain_node" r = LateStep.createCluster d) ∧
    (∀ (p : Pending) (id : String),
      (timeoutStep p id).2 = ⟨false, some "Timeout"⟩ ∧
      ∀ fs, lookupReq p id = some fs →
        lookupReq (timeoutStep p id).1 id = some FutureState.timedOut) := by
  refine ⟨fun p rs id => resolveCount_le_one rs p id, ?_, ?_, ?_, ?_⟩
  · intro p r hfs
    by_cases hr : r.request_id ≠ ""
    · by_cases hs : r.success <;> cases hct : r.command_type <;>
        simp [handleCClientResponse, hr, hfs, hs, hct]
    · simp [handleCClientResponse, hr]
  · intro p r cmd hfs hr hs hct
    simp [handleCClientResponse, hr, hfs, hs, hct]
  · intro r d hd hne
    simp [processLateResponse, hd, hne]
  · intro p id
    refine ⟨rfl, ?_⟩
    intro fs hfs
    induction p with
    | nil => simp [lookupReq] at hfs
    | cons e tl ih =>
      by_cases he : e.1 = id
      · simp [timeoutStep, lookupReq, he]
      · simp only [lookupReq, if_neg he] at hfs
        simpa [timeoutStep, lookupReq, he] using ih hfs

/-- Witness for `req_id_at_most_one_resolution`: a concrete table with one
timed-out entry receiving a duplicate late `new_domain_node` reply. -/
theorem req_id_at_most_one_resolution_witness :
    resolveCount [("r1", FutureState.waiting)]
      [⟨"r1", some "new_domain_node", true, some "d1", none, none⟩,
        ⟨"r1", some "new_domain_node", true, some "d1", none, none⟩] "r1" ≤ 1 ∧
    (handleCClientResponse [("r1", FutureState.timedOut)]
        ⟨"r1", some "new_domain_node", true, some "d1", none, none⟩).2 =
      RespAction.lateProcess "new_domain_node" ∧
    processLateResponse "new_domain_node"
        ⟨"r1", some "new_domain_node", true, some "d1", none, none⟩ =
      LateStep.createCluster "d1" ∧
    lookupReq (timeoutStep [("r1", FutureState.waiting)] "r1").1 "r1" =
      some FutureState.timedOut :=
  ⟨req_id_at_most_one_resolution.1 _ _ _,
    req_id_at_most_one_resolution.2.2.1 [("r1", FutureState.timedOut)]
      ⟨"r1", some "new_domain_node", true, some "d1", none, none⟩ "new_domain_node"
      (by decide) (by decide) rfl rfl,
    req_id_at_most_one_resolution.2.2.2.1
      ⟨"r1", some "new_domain_node", true, some "d1", none, none⟩ "d1" rfl (by decide),
    (req_id_at_most_one_resolution.2.2.2.2 [("r1", FutureState.waiting)] "r1").2
      FutureState.waiting (by decide)⟩

end Dispatcher

namespace Fanout

/-- Per-batch bookkeeping entry of `pending_batches`
(sync_manager.py:198-205): the number of peers the batch was forwarded to
and the number of acks received. -/
structure PendingBatch where
  forwarded_count : Nat
  feedback_received : Nat
  deriving DecidableEq

/-- Entry stored by `handle_user_activities_batch` when a batch arrives:
both counters start at zero, before the forward loop has run. -/
def initialPendingBatch : PendingBatch := ⟨0, 0⟩

/-- Events touching one stored batch: the deferred forward-count update of
`_forward_to_channel_nodes` (sync_manager.py:361-363) and one peer ack
handled by `handle_batch_feedback` (sync_manager.py:251-283). -/
inductive Ev
  | setForwarded (n : Nat)
  | feedback
  deriving DecidableEq

/-- State transition of the pending entry: both handlers are no-ops once
the batch id left `pending_batches`; a feedback increments the ack count
and deletes the entry as soon as the count reaches — or passes — the
recorded forward count (the comparison in the source is `>=`). -/
def stepBatch : Option PendingBatch → Ev → Option PendingBatch
  | none, _ => none
  | some b, .setForwarded n => some ⟨n, b.feedback_received⟩
  | some b, .feedback =>
    if b.feedback_received + 1 ≥ b.forwarded_count then none
    else some ⟨b.forwarded_count, b.feedback_received + 1⟩

/-- Run a trace of events against a freshly stored batch. -/
def runBatch (evs : List Ev) : Option PendingBatch :=
  evs.foldl stepBatch (some initialPendingBatch)

/-- Fan-out accounting as the specification states it, for one batch and
one event trace: whenever the entry exists, acks never exceed the forward
count, and an eviction takes place only at exact equality. -/
def fanoutAccountingOk (evs : List Ev) : Prop :=
  (∀ pre, pre <+: evs → ∀ b, runBatch pre = some b →
      b.feedback_received ≤ b.forwarded_count) ∧
  (∀ pre, pre ++ [Ev.feedback] <+: evs → ∀ b, runBatch pre = some b →
      runBatch (pre ++ [Ev.feedback]) = none →
      b.feedback_received + 1 = b.forwarded_count)

/-- C5 counterexample.  The entry is stored with both counters at zero and
the forward count is written only after the send loop finishes, so an ack
that arrives while the loop is still sending (here: before the update to
2) evicts the batch with one ack against a recorded forward count of zero
— the eviction compares with `>=`, not equality. -/
theorem fanout_accounting_violated :
    ¬ fanoutAccountingOk [Ev.feedback, Ev.setForwarded 2] := by
  intro h
  have hfalse := h.2 [] ⟨[Ev.setForwarded 2], rfl⟩ initialPendingBatch rfl rfl
  simp [initialPendingBatch] at hfalse

/-- Helper: a trace acting on an evicted batch stays evicted. -/
theorem applyFeedbacks_none (j : Nat) :
    (List.replicate j Ev.feedback).foldl stepBatch none = none := by
  induction j with
  | zero => rfl
  | succ j ih => simpa [List.replicate_succ, stepBatch] using ih

/-- Helper: feedbacks against a recorded forward count `n` count up until
they reach `n`, at which point the entry is evicted. -/
theorem applyFeedbacks_run (n : Nat) :
    ∀ (j i : Nat), i < n →
      (List.replicate j Ev.feedback).foldl stepBatch (some ⟨n, i⟩) =
        if i + j < n then some ⟨n, i + j⟩ else none := by
  intro j
  induction j with
  | zero =>
    intro i hi
    simp [hi]
  | succ j ih =>
    intro i hi
    rw [List.replicate_succ, List.foldl_cons]
    by_cases hev : i + 1 ≥ n
    · have hstep : stepBatch (some ⟨n, i⟩) Ev.feedback = none := by
        simp [stepBatch, hev]
      have hnn : ¬ i + (j + 1) < n := by omega
      rw [hstep, applyFeedbacks_none, if_neg hnn]
    · have hstep : stepBatch (some ⟨n, i⟩) Ev.feedback = some ⟨n, i + 1⟩ := by
        simp [stepBatch]
        omega
      rw [hstep, ih (i + 1) (by omega)]
      by_cases hc : i + 1 + j < n
      · rw [if_pos hc, if_pos (by omega)]
        have : i + 1 + j = i + (j + 1) := by omega
        rw [this]
      · rw [if_neg hc, if_neg (by omega)]

/-- Helper: a prefix of a replicate list is a shorter replicate list. -/
theorem prefix_of_replicate {α : Type} {t : List α} {k : Nat} {a : α}
    (h : t <+: List.replicate k a) :
    t = List.replicate t.length a ∧ t.length ≤ k := by
  constructor
  · apply List.eq_replicate_of_mem
    intro b hb
    exact List.eq_of_mem_replicate (h.sublist.subset hb)
  · simpa using h.length_le

/-- Helper: a prefix of a cons either is empty or starts with the head. -/
theorem prefix_of_cons {α : Type} {l t : List α} {a : α} (h : l <+: a :: t) :
    l = [] ∨ ∃ l', l = a :: l' ∧ l' <+: t := by
  cases l with
  | nil => exact Or.inl rfl
  | cons x xs =>
    rcases h with ⟨s, hs⟩
    rw [List.cons_append] at hs
    injection hs with h1 h2
    exact Or.inr ⟨xs, by rw [h1], ⟨s, h2⟩⟩

/-- C5 as amended.  Under the intended sequencing — the forward count `n`
is recorded before any ack arrives, and at most one ack arrives per
forwarded peer — acks never exceed the forward count while the entry
lives, and the entry is evicted exactly when the ack count reaches the
forward count. -/
theorem fanout_accounting_sequenced (n k : Nat) (hk : k ≤ n) :
    fanoutAccountingOk (Ev.setForwarded n :: List.replicate k Ev.feedback) := by
  constructor
  · intro pre hpre b hrun
    rcases prefix_of_cons hpre with hnil | ⟨t, hcons, ht⟩
    · subst hnil
      rw [show runBatch [] = some initialPendingBatch from rfl] at hrun
      cases hrun
      exact Nat.le_refl 0
    · subst hcons
      rcases prefix_of_replicate ht with ⟨hrep, hlen⟩
      rw [hrep] at hrun
      by_cases hn : 0 < n
      · rw [runBatch, List.foldl_cons,
          show stepBatch (some initialPendingBatch) (Ev.setForwarded n) = some ⟨n, 0⟩ from rfl,
          applyFeedbacks_run n t.length 0 hn] at hrun
        by_cases hc : 0 + t.length < n
        · rw [if_pos hc] at hrun
          cases hrun
          show 0 + t.length ≤ n
          omega
        · rw [if_neg hc] at hrun
          cases hrun
      · have hn0 : n = 0 := by omega
        have hk0 : k = 0 := by omega
        subst hn0
        subst hk0
        have ht0 : t.length = 0 := by omega
        rw [List.eq_nil_of_length_eq_zero ht0] at hrun
        have hb : some (⟨0, 0⟩ : PendingBatch) = some b := hrun
        cases hb
        exact Nat.le_refl 0
  · intro pre hpre b hrun hev
    rcases prefix_of_cons hpre with hnil | ⟨t, hcons, ht⟩
    · exact absurd (congrArg (List.head? ·) hnil) (by simp)
    · have hpre2 : pre = Ev.setForwarded n :: t.dropLast ∧ t.dropLast ++ [Ev.feedback] = t := by
        cases pre with
        | nil =>
          exfalso
          simp at hcons
        | cons e p' =>
          rw [List.cons_append] at hcons
          injection hcons with h1 h2
          constructor
          · rw [h1]
            congr 1
            rw [← h2]
            simp
          · rw [← h2]
            simp
      rcases hpre2 with ⟨hpre2, hdrop⟩
      rcases prefix_of_replicate ht with ⟨hrep, hlen⟩
      have hjlen : t.length = t.dropLast.length + 1 := by
        rw [← hdrop]
        simp
      have hdl : t.dropLast = List.replicate t.dropLast.length Ev.feedback := by
        have hsub : t.dropLast <+: t := ⟨[Ev.feedback], hdrop⟩
        have := prefix_of_replicate (hsub.trans ht)
        exact this.1
      set j := t.dropLast.length with hj
      have hjk : j + 1 ≤ k := by omega
      have hjn : j < n := by omega
      rw [hpre2, hdl, runBatch, List.foldl_cons,
        show stepBatch (some initialPendingBatch) (Ev.setForwarded n) = some ⟨n, 0⟩ from rfl,
        applyFeedbacks_run n j 0 (by omega), if_pos (by omega)] at hrun
      cases hrun
      rw [hpre2, hdl] at hev
      simp only [runBatch, List.foldl_append, List.foldl_cons, List.foldl_nil] at hev
      rw [show stepBatch (some initialPendingBatch) (Ev.setForwarded n) = some ⟨n, 0⟩ from rfl,
        applyFeedbacks_run n j 0 (by omega), if_pos (by omega)] at hev
      by_cases hfin : 0 + j + 1 ≥ n
      · show 0 + j + 1 = n
        omega
      · rw [show stepBatch (some ⟨n, 0 + j⟩) Ev.feedback = some ⟨n, 0 + j + 1⟩ by
          simp [stepBatch]
          omega] at hev
        cases hev

/-- Witness for `fanout_accounting_sequenced` at a concrete sequenced
trace: two forwarded peers followed by two acks. -/
theorem fanout_accounting_sequenced_witness :
    fanoutAccountingOk (Ev.setForwarded 2 :: List.replicate 2 Ev.feedback) :=
  fanout_accounting_sequenced 2 2 (by decide)

/-- One `ClientConnection` as the forward loop of
`_forward_to_channel_nodes` sees it.  `conn_id` stands for object
identity, `has_websocket` for `conn.websocket` being set, `send_ok` for
the awaited `websocket.send` not raising. -/
structure ChanConn where
  conn_id : Nat
  user_id : String
  node_id : String
  has_websocket : Bool
  send_ok : Bool
  deriving DecidableEq

/-- Forward loop of `_forward_to_channel_nodes` (sync_manager.py:345-359):
members whose `user_id` equals the sender's `user_id` are skipped, members
without a websocket are skipped, and `forwarded_count` is incremented once
per peer whose send succeeded (a raising send counts as failed instead). -/
def forwardLoop (source_user : String) : List ChanConn → List ChanConn × Nat × Nat
  | [] => ([], 0, 0)
  | c :: rest =>
    let r := forwardLoop source_user rest
    if c.user_id ≠ source_user ∧ c.has_websocket then
      if c.send_ok then (c :: r.1, r.2.1 + 1, r.2.2)
      else (r.1, r.2.1, r.2.2 + 1)
    else r

/-- Modelled from the claim's words, for comparison with the code: the
target set is every live channel member other than the source session
itself, the source being identified as a session. -/
def claimedTargets (source : ChanConn) (channel : List ChanConn) : List ChanConn :=
  channel.filter fun c => c.conn_id ≠ source.conn_id && c.has_websocket

/-- Ingress dispatch of `handle_user_activities_batch`
(sync_manager.py:147-228) after the external URL filter ran: an empty
surviving list is acked as filtered and never forwarded; otherwise the
batch is stored and the forward loop runs against the sender's channel. -/
inductive BatchIngress
  | filteredOut
  | forwarded (targets : List ChanConn) (forwarded_count : Nat)
  deriving DecidableEq

/-- Combined ingress behaviour for one batch whose post-filter activity
list and channel membership are given. -/
def handleUserActivitiesBatch (filtered : List String) (source_user : String)
    (channel : List ChanConn) : BatchIngress :=
  if filtered.isEmpty then BatchIngress.filteredOut
  else BatchIngress.forwarded (forwardLoop source_user channel).1
    (forwardLoop source_user channel).2.1

/-- A session of the sending user on another node, holding a live
websocket: by the claim it must receive the batch. -/
def sameUserPeer : ChanConn := ⟨1, "u1", "n2", true, true⟩

/-- The sending session. -/
def senderConn : ChanConn := ⟨0, "u1", "n1", true, true⟩

/-- C6 counterexample.  A channel holding the sender and a second live
session of the same user on another node: the code forwards to nobody —
the loop excludes peers by `user_id`, not by session identity — while the
claim requires the batch to reach every channel member except the source
session, here the second session. -/
theorem forward_targets_counterexample :
    handleUserActivitiesBatch ["a"] "u1" [senderConn, sameUserPeer] =
      BatchIngress.forwarded [] 0 ∧
    claimedTargets senderConn [senderConn, sameUserPeer] = [sameUserPeer] := by
  constructor
  · rfl
  · rfl

/-- C6 as amended.  For every ingress batch with at least one surviving
item, the loop forwards the filtered batch exactly to the channel members
whose `user_id` differs from the sender's and which hold a websocket, and
`forwarded_count` counts exactly the forwarded peers whose send
succeeded. -/
theorem forward_targets_amended (filtered : List String) (source_user : String)
    (channel : List ChanConn) (hne : filtered ≠ []) :
    handleUserActivitiesBatch filtered source_user channel =
      BatchIngress.forwarded
        (channel.filter fun c => c.user_id ≠ source_user && c.has_websocket && c.send_ok)
        (channel.filter fun c =>
          c.user_id ≠ source_user && c.has_websocket && c.send_ok).length := by
  have hloop : ∀ ch : List ChanConn,
      (forwardLoop source_user ch).1 =
        ch.filter (fun c => c.user_id ≠ source_user && c.has_websocket && c.send_ok) ∧
      (forwardLoop source_user ch).2.1 =
        (ch.filter fun c => c.user_id ≠ source_user && c.has_websocket && c.send_ok).length := by
    intro ch
    induction ch with
    | nil => exact ⟨rfl, rfl⟩
    | cons c rest ih =>
      by_cases hu : c.user_id ≠ source_user ∧ c.has_websocket = true
      · by_cases hs : c.send_ok = true
        · constructor
          · simp [forwardLoop, hu, hs, List.filter_cons, hu.1, hu.2, ih.1]
          · simp [forwardLoop, hu, hs, List.filter_cons, hu.1, hu.2, ih.1, ih.2]
        · constructor
          · simp [forwardLoop, hu, hs, List.filter_cons, ih.1]
          · simp [forwardLoop, hu, hs, List.filter_cons, ih.1, ih.2]
      · constructor
        · rw [forwardLoop, if_neg hu, List.filter_cons, if_neg (by
            intro hc
            simp at hc
            exact hu ⟨hc.1.1, hc.1.2⟩)]
          exact ih.1
        · rw [forwardLoop, if_neg hu, List.filter_cons, if_neg (by
            intro hc
            simp at hc
            exact hu ⟨hc.1.1, hc.1.2⟩)]
          exact ih.2
  unfold handleUserActivitiesBatch
  rw [if_neg (by simpa using hne), (hloop channel).1, (hloop channel).2]

/-- Witness for `forward_targets_amended` at a concrete channel of three
members: the sender, a peer of another user, and a websocket-less peer. -/
theorem forward_targets_amended_witness :
    handleUserActivitiesBatch ["a"] "u1"
        [senderConn, ⟨2, "u2", "n3", true, true⟩, ⟨3, "u3", "n4", false, true⟩] =
      BatchIngress.forwarded [⟨2, "u2", "n3", true, true⟩] 1 := by
  have h := forward_targets_amended ["a"] "u1"
    [senderConn, ⟨2, "u2", "n3", true, true⟩, ⟨3, "u3", "n4", false, true⟩]
    (by decide)
  rw [h]
  rfl

end Fanout

namespace Placement

/-- Outcome of one 30-second `count_peers_amount` RPC as returned to
`count_peers` by `send_to_c_client` (nodeManager.py:647-683): a reply with
its `success` flag and optional `data.count`, a timeout, a closed
connection, or a send error. -/
inductive CountOutcome
  | reply (success : Bool) (count : Option Nat)
  | timeout
  | connClosed
  | sendError
  deriving DecidableEq

/-- Whether the `send_to_c_client` result carries `success`; every failure
branch returns a dict with `success = False`. -/
def countResponseSuccess : CountOutcome → Bool
  | .reply s _ => s
  | .timeout => false
  | .connClosed => false
  | .sendError => false

/-- `count_peers` (nodeManager.py:757-780): the count of a successful
reply, defaulting to 0 when the field is absent; 0 on an unsuccessful
reply; 0 on timeout, closed connection or any error. -/
def countPeers : CountOutcome → Nat
  | .reply true (some n) => n
  | .reply true none => 0
  | .reply false _ => 0
  | .timeout => 0
  | .connClosed => 0
  | .sendError => 0

/-- Shared capacity gate of the three assignment functions: with an empty
pool the peer count is skipped and assignment proceeds directly; otherwise
the loop breaks at the first `count_peers` call — which never raises — and
assignment proceeds unless that count reaches 1000. -/
def capacityGate (outcomes : List CountOutcome) : Bool :=
  match outcomes with
  | [] => true
  | o :: _ => countPeers o < 1000

/-- Capacity gate of `assign_to_channel` (nodeManager.py:784-819), keyed by
the count outcomes of the channel pool's connections in order. -/
def assignToChannelProceeds (outcomes : List CountOutcome) : Bool :=
  capacityGate outcomes

/-- Capacity gate of `assign_to_cluster` (nodeManager.py:856-891). -/
def assignToClusterProceeds (outcomes : List CountOutcome) : Bool :=
  capacityGate outcomes

/-- Capacity gate of `assign_to_domain` (nodeManager.py:944-979). -/
def assignToDomainProceeds (outcomes : List CountOutcome) : Bool :=
  capacityGate outcomes

/-- A failed peer-count attempt: RPC timeout, closed connection, send
error, or a reply with `success = False`. -/
def failedOutcome (o : CountOutcome) : Prop :=
  o = CountOutcome.timeout ∨ o = CountOutcome.connClosed ∨
  o = CountOutcome.sendError ∨ ∃ c, o = CountOutcome.reply false c

/-- C10.  A failed peer-count never blocks assignment: `count_peers`
returns 0 whenever the `count_peers_amount` RPC errors, times out or
replies unsuccessfully, and each of `assign_to_domain`,
`assign_to_cluster` and `assign_to_channel` proceeds with the assignment
when every count attempt fails or the target pool is empty — the
1000-children capacity check is skipped rather than treated as full. -/
theorem count_failure_never_blocks :
    (∀ o : CountOutcome, failedOutcome o → countPeers o = 0) ∧
    (∀ outcomes : List CountOutcome,
      (outcomes = [] ∨ ∀ o ∈ outcomes, failedOutcome o) →
      assignToChannelProceeds outcomes = true ∧
      assignToClusterProceeds outcomes = true ∧
      assignToDomainProceeds outcomes = true) := by
  have hzero : ∀ o : CountOutcome, failedOutcome o → countPeers o = 0 := by
    intro o h
    rcases h with h | h | h | ⟨c, h⟩ <;> subst h <;> rfl
  refine ⟨hzero, ?_⟩
  intro outcomes h
  have hgate : capacityGate outcomes = true := by
    cases outcomes with
    | nil => rfl
    | cons o rest =>
      rcases h with h | h
      · cases h
      · have h0 := hzero o (h o (List.mem_cons_self o rest))
        simp [capacityGate, h0]
  exact ⟨hgate, hgate, hgate⟩

/-- Witness for `count_failure_never_blocks`: a pool whose only member
times out, and an empty pool. -/
theorem count_failure_never_blocks_witness :
    countPeers CountOutcome.timeout = 0 ∧
    assignToChannelProceeds [CountOutcome.timeout] = true ∧
    assignToDomainProceeds [] = true :=
  ⟨count_failure_never_blocks.1 CountOutcome.timeout (Or.inl rfl),
    (count_failure_never_blocks.2 [CountOutcome.timeout]
      (Or.inr fun o ho => by
        rw [List.mem_singleton.mp ho]
        exact Or.inl rfl)).1,
    (count_failure_never_blocks.2 [] (Or.inl rfl)).2.2⟩

end Placement

namespace SessionBroker

/-- A `user_cookies` row as read by `send_session_if_appropriate`. -/
structure UserCookieRow where
  user_id : String
  cookie : String
  deriving DecidableEq

/-- The `user_accounts` row for `(user_id, website = nsn)` with its
`logout` flag. -/
structure UserAccountRow where
  user_id : String
  logout : Bool
  deriving DecidableEq

/-- Python truthiness of an optional string attribute. -/
def pyTruthy : Option String → Bool
  | none => false
  | some s => s ≠ ""

/-- Decision reached by `send_session_if_appropriate`
(websocket_client.py:1750-1876) before any frame leaves the broker. -/
inductive SessionDecision
  | noCookie          -- no saved session: return False
  | blockedLoggedOut  -- logout flag set: return False, nothing sent
  | verifyThenSend    -- channel and node known: run cluster attestation first
  | sendDirect        -- no channel/node: push the cookie without attestation
  deriving DecidableEq

/-- `send_session_if_appropriate` (websocket_client.py:1750-1876): no
stored cookie returns immediately; a stored cookie with the account's
`logout` flag set skips the send (re-login must be explicit); otherwise a
known channel and node trigger cluster attestation before delivery, and a
missing channel or node delivers directly. -/
def sendSessionIfAppropriate (cookie : Option UserCookieRow)
    (nsnAccount : Option UserAccountRow)
    (channel_id node_id : Option String) : SessionDecision :=
  match cookie with
  | none => SessionDecision.noCookie
  | some _ =>
    let should_send :=
      match nsnAccount with
      | some a => !a.logout
      | none => true
    if should_send then
      if pyTruthy channel_id && pyTruthy node_id then SessionDecision.verifyThenSend
      else SessionDecision.sendDirect
    else SessionDecision.blockedLoggedOut

/-- Whether the decision leads to running the cluster attestation. -/
def runsAttestation : SessionDecision → Bool
  | SessionDecision.verifyThenSend => true
  | _ => false

/-- Whether the decision can lead to a cookie/auto-login frame being
pushed (for `verifyThenSend`, conditional on attestation passing). -/
def mayDeliverCookie : SessionDecision → Bool
  | SessionDecision.verifyThenSend => true
  | SessionDecision.sendDirect => true
  | _ => false

/-- C9.  For every user whose stored credential exists and whose account
carries the `logged_out` flag, the session broker stops before delivery:
the decision is the blocked one, under which no cookie or auto-login frame
is pushed and no attestation is run. -/
theorem logged_out_blocks_session_push
    (cookie : Option UserCookieRow) (acct : Option UserAccountRow)
    (channel_id node_id : Option String) (c : UserCookieRow) (a : UserAccountRow)
    (hc : cookie = some c) (ha : acct = some a) (hl : a.logout = true) :
    sendSessionIfAppropriate cookie acct channel_id node_id =
      SessionDecision.blockedLoggedOut ∧
    mayDeliverCookie (sendSessionIfAppropriate cookie acct channel_id node_id) = false ∧
    runsAttestation (sendSessionIfAppropriate cookie acct channel_id node_id) = false := by
  subst hc
  subst ha
  have hd : sendSessionIfAppropriate (some c) (some a) channel_id node_id =
      SessionDecision.blockedLoggedOut := by
    simp [sendSessionIfAppropriate, hl]
  exact ⟨hd, by rw [hd]; rfl, by rw [hd]; rfl⟩

/-- Witness for `logged_out_blocks_session_push` at a concrete logged-out
user with a stored cookie and full placement. -/
theorem logged_out_blocks_session_push_witness :
    sendSessionIfAppropriate (some ⟨"u1", "blob"⟩) (some ⟨"u1", true⟩)
        (some "k1") (some "n1") = SessionDecision.blockedLoggedOut ∧
    mayDeliverCookie (sendSessionIfAppropriate (some ⟨"u1", "blob"⟩)
        (some ⟨"u1", true⟩) (some "k1") (some "n1")) = false ∧
    runsAttestation (sendSessionIfAppropriate (some ⟨"u1", "blob"⟩)
        (some ⟨"u1", true⟩) (some "k1") (some "n1")) = false :=
  logged_out_blocks_session_push (some ⟨"u1", "blob"⟩) (some ⟨"u1", true⟩)
    (some "k1") (some "n1") ⟨"u1", "blob"⟩ ⟨"u1", true⟩ rfl rfl rfl

end SessionBroker

namespace PairingCode

/-- A `UserSecurityCode` row (services/models.py): the pairing code with
the issuing user's identity and placement. -/
structure SecurityCodeRow where
  nmp_user_id : String
  nmp_username : String
  domain_id : Option String
  cluster_id : Option String
  channel_id : Option String
  security_code : String
  deriving DecidableEq

/-- `UserSecurityCode.query.filter_by(security_code=...).first()`. -/
def lookupByCode (db : List SecurityCodeRow) (code : String) : Option SecurityCodeRow :=
  match db with
  | [] => none
  | row :: rest => if row.security_code = code then some row else lookupByCode rest code

/-- Deletion of the first row matching a code, as performed by the
one-time-use block (websocket_client.py:1331-1343). -/
def deleteFirstByCode (db : List SecurityCodeRow) (code : String) : List SecurityCodeRow :=
  match db with
  | [] => []
  | row :: rest =>
    if row.security_code = code then rest else row :: deleteFirstByCode rest code

/-- Outcome of the identity-resolution part of a registration. -/
structure RegOutcome where
  is_new_device_login : Bool
  effective_user_id : String
  effective_username : String
  db_after : List SecurityCodeRow
  deriving DecidableEq

/-- Identity resolution and one-time-use deletion inside
`_process_c_client_registration` (websocket_client.py:846-875 and
1318-1346): a username matching an outstanding code turns the registration
into a new-device login bound to the code's original user, and the code
record is deleted before the success frame is sent; any other username
keeps its own identity and leaves the table untouched. -/
def processRegistrationCode (db : List SecurityCodeRow)
    (user_id username : String) : RegOutcome :=
  match lookupByCode db username with
  | some row =>
    ⟨true, row.nmp_user_id, row.nmp_username, deleteFirstByCode db row.security_code⟩
  | none => ⟨false, user_id, username, db⟩

/-- Helper: an absent code is found by no lookup. -/
theorem lookupByCode_eq_none_iff (db : List SecurityCodeRow) (code : String) :
    lookupByCode db code = none ↔ ∀ row ∈ db, row.security_code ≠ code := by
  induction db with
  | nil => simp [lookupByCode]
  | cons row rest ih =>
    by_cases h : row.security_code = code
    · simp [lookupByCode, h]
    · simp [lookupByCode, h, ih]

/-- Helper: the found row carries the searched code. -/
theorem lookupByCode_code {db : List SecurityCodeRow} {code : String}
    {row : SecurityCodeRow} (h : lookupByCode db code = some row) :
    row.security_code = code := by
  induction db with
  | nil => simp [lookupByCode] at h
  | cons r rest ih =>
    by_cases hr : r.security_code = code
    · simp only [lookupByCode, if_pos hr] at h
      cases h
      exact hr
    · simp only [lookupByCode, if_neg hr] at h
      exact ih h

/-- Helper: with at most one row per code, deleting the first match
removes the code from the table. -/
theorem lookup_deleteFirst_none (db : List SecurityCodeRow) (code : String)
    (huniq : (db.filter fun r => r.security_code = code).length ≤ 1) :
    lookupByCode (deleteFirstByCode db code) code = none := by
  induction db with
  | nil => rfl
  | cons row rest ih =>
    by_cases h : row.security_code = code
    · rw [deleteFirstByCode, if_pos h]
      rw [List.filter_cons, if_pos (by simpa using h)] at huniq
      have hrest : (rest.filter fun r => r.security_code = code) = [] := by
        have hlen : (rest.filter fun r => r.security_code = code).length + 1 ≤ 1 := by
          simpa using huniq
        exact List.eq_nil_of_length_eq_zero (by omega)
      apply (lookupByCode_eq_none_iff rest code).mpr
      intro r hr hc
      have : r ∈ rest.filter fun r => r.security_code = code :=
        List.mem_filter.mpr ⟨hr, by simpa using hc⟩
      rw [hrest] at this
      simp at this
    · rw [deleteFirstByCode, if_neg h]
      rw [lookupByCode, if_neg h]
      apply ih
      rw [List.filter_cons, if_neg (by simpa using h)] at huniq
      exact huniq

/-- C8.  Pairing codes are single-use: after a registration whose username
matched an outstanding code, the `UserSecurityCode` record for that code
no longer exists, and a second registration presenting the same code is
not treated as a new-device login binding the original user's identity —
it keeps the raw identity it presented. -/
theorem pairing_code_single_use (db : List SecurityCodeRow)
    (uid1 uid2 code : String) (row : SecurityCodeRow)
    (hfound : lookupByCode db code = some row)
    (huniq : (db.filter fun r => r.security_code = code).length ≤ 1) :
    (processRegistrationCode db uid1 code).is_new_device_login = true ∧
    lookupByCode (processRegistrationCode db uid1 code).db_after code = none ∧
    (processRegistrationCode
        (processRegistrationCode db uid1 code).db_after uid2 code).is_new_device_login
      = false ∧
    (processRegistrationCode
        (processRegistrationCode db uid1 code).db_after uid2 code).effective_user_id
      = uid2 := by
  have hcode := lookupByCode_code hfound
  have hafter : (processRegistrationCode db uid1 code).db_after =
      deleteFirstByCode db code := by
    simp [processRegistrationCode, hfound, hcode]
  have hnone : lookupByCode (processRegistrationCode db uid1 code).db_after code = none := by
    rw [hafter]
    exact lookup_deleteFirst_none db code huniq
  have h2 : processRegistrationCode (processRegistrationCode db uid1 code).db_after uid2 code
      = ⟨false, uid2, code, (processRegistrationCode db uid1 code).db_after⟩ := by
    set d := (processRegistrationCode db uid1 code).db_after with hd
    simp [processRegistrationCode, hnone]
  refine ⟨by simp [processRegistrationCode, hfound], hnone, ?_, ?_⟩ <;> rw [h2]

/-- Witness for `pairing_code_single_use` at a one-row table holding the
code `AbcdEfgh` issued for user `u1`. -/
theorem pairing_code_single_use_witness :
    (processRegistrationCode [⟨"u1", "alice", none, none, none, "AbcdEfgh"⟩]
        "raw1" "AbcdEfgh").is_new_device_login = true ∧
    lookupByCode (processRegistrationCode [⟨"u1", "alice", none, none, none, "AbcdEfgh"⟩]
        "raw1" "AbcdEfgh").db_after "AbcdEfgh" = none ∧
    (processRegistrationCode
        (processRegistrationCode [⟨"u1", "alice", none, none, none, "AbcdEfgh"⟩]
          "raw1" "AbcdEfgh").db_after "raw2" "AbcdEfgh").is_new_device_login = false ∧
    (processRegistrationCode
        (processRegistrationCode [⟨"u1", "alice", none, none, none, "AbcdEfgh"⟩]
          "raw1" "AbcdEfgh").db_after "raw2" "AbcdEfgh").effective_user_id = "raw2" :=
  pairing_code_single_use [⟨"u1", "alice", none, none, none, "AbcdEfgh"⟩]
    "raw1" "raw2" "AbcdEfgh" ⟨"u1", "alice", none, none, none, "AbcdEfgh"⟩
    (by decide) (by decide)

end PairingCode

namespace Registry

/-- A registered C-Client connection as the pools see it: `conn_id` stands
for the socket's object identity, the three ids are the metadata set on
the websocket at registration, `valid` is the verdict of
`is_connection_valid` (constant along the duplicate-registration path,
which flips no flags on existing sockets). -/
structure Conn where
  conn_id : Nat
  node_id : String
  client_id : String
  user_id : String
  valid : Bool
  deriving DecidableEq

/-- One connection-pool dict: key to ordered bucket of connections. -/
abbrev Pool := List (String × List Conn)

/-- The three parallel registries of `websocket_client.py`. -/
structure Pools where
  node_connections : Pool
  user_connections : Pool
  client_connections : Pool
  deriving DecidableEq

/-- The bucket of a key (`pool.get(key, [])`). -/
def bucket (p : Pool) (k : String) : List Conn :=
  match p with
  | [] => []
  | (k', b) :: rest => if k' = k then b else bucket rest k

/-- Registration-time insertion: append to the key's bucket, creating the
bucket when absent (websocket_client.py:944-948 and analogues). -/
def appendConn (p : Pool) (k : String) (c : Conn) : Pool :=
  match p with
  | [] => [(k, [c])]
  | (k', b) :: rest =>
    if k' = k then (k', b ++ [c]) :: rest else (k', b) :: appendConn rest k c

/-- Removal of a socket from one pool as `remove_connection_from_all_pools`
does it (websocket_client.py:2584-2621): the first bucket holding the
object loses its first occurrence, an emptied bucket is deleted, and the
scan stops at that bucket. -/
def removeConnPool (p : Pool) (c : Conn) : Pool :=
  match p with
  | [] => []
  | (k, b) :: rest =>
    if c ∈ b then
      if b.erase c = [] then rest else (k, b.erase c) :: rest
    else (k, b) :: removeConnPool rest c

/-- `remove_connection_from_all_pools` (websocket_client.py:2573-2621). -/
def removeFromAllPools (st : Pools) (c : Conn) : Pools :=
  ⟨removeConnPool st.node_connections c,
    removeConnPool st.user_connections c,
    removeConnPool st.client_connections c⟩

/-- Removal of a socket from every bucket of one pool, as the synchronous
`remove_invalid_connection` does it (websocket_client.py:2494-2525): every
bucket loses its first occurrence of the object and emptied buckets are
deleted. -/
def removeInvalidPool (p : Pool) (c : Conn) : Pool :=
  match p with
  | [] => []
  | (k, b) :: rest =>
    if c ∈ b then
      if b.erase c = [] then removeInvalidPool rest c
      else (k, b.erase c) :: removeInvalidPool rest c
    else (k, b) :: removeInvalidPool rest c

/-- `remove_invalid_connection` over the three pools. -/
def removeInvalidAll (st : Pools) (c : Conn) : Pools :=
  ⟨removeInvalidPool st.node_connections c,
    removeInvalidPool st.user_connections c,
    removeInvalidPool st.client_connections c⟩

/-- Duplicate criterion used while scanning the node pool: a different
socket carrying the same client and user ids
(websocket_client.py:2328-2330). -/
def dupMatchNode (w c : Conn) : Bool :=
  c.conn_id ≠ w.conn_id && c.client_id = w.client_id && c.user_id = w.user_id

/-- Duplicate criterion for the client pool (same node and user ids). -/
def dupMatchClient (w c : Conn) : Bool :=
  c.conn_id ≠ w.conn_id && c.node_id = w.node_id && c.user_id = w.user_id

/-- Duplicate criterion for the user pool (same node and client ids). -/
def dupMatchUser (w c : Conn) : Bool :=
  c.conn_id ≠ w.conn_id && c.node_id = w.node_id && c.client_id = w.client_id

/-- One bucket scan of `check_duplicate_registration`
(websocket_client.py:2318-2371): the first matching valid connection wins;
a matching invalid connection is evicted from all pools and the scan
continues.  The source iterates the live bucket while evicting; the
embedding scans the bucket as it stood when the scan began. -/
def scanForDup (matchFn : Conn → Bool) : List Conn → Pools → Pools × Bool
  | [], st => (st, false)
  | c :: rest, st =>
    if matchFn c then
      if c.valid then (st, true)
      else scanForDup matchFn rest (removeInvalidAll st c)
    else scanForDup matchFn rest st

/-- `check_duplicate_registration` (websocket_client.py:2318-2371): the
node bucket is scanned first, then the client bucket, then the user
bucket; a valid duplicate anywhere answers yes. -/
def checkDuplicateRegistration (st : Pools) (w : Conn) : Pools × Bool :=
  let r1 := scanForDup (dupMatchNode w) (bucket st.node_connections w.node_id) st
  if r1.2 then r1
  else
    let r2 := scanForDup (dupMatchClient w) (bucket r1.1.client_connections w.client_id) r1.1
    if r2.2 then r2
    else scanForDup (dupMatchUser w) (bucket r2.1.user_connections w.user_id) r2.1

/-- `find_existing_connection` (websocket_client.py:2539-2571): the first
connection with matching ids in the node bucket, else the client bucket,
else the user bucket; validity is not consulted and the new socket is not
excluded. -/
def findExistingConnection (st : Pools) (w : Conn) : Option Conn :=
  match (bucket st.node_connections w.node_id).find?
      (fun c => c.client_id = w.client_id && c.user_id = w.user_id) with
  | some c => some c
  | none =>
    match (bucket st.client_connections w.client_id).find?
        (fun c => c.node_id = w.node_id && c.user_id = w.user_id) with
    | some c => some c
    | none =>
      (bucket st.user_connections w.user_id).find?
        (fun c => c.node_id = w.node_id && c.client_id = w.client_id)

/-- Observable socket actions along the duplicate-registration path. -/
inductive RegAction
  | ackExisting (conn_id : Nat)  -- registration_success sent to the existing socket
  | closeNew (code : Nat)        -- websocket.close(code=1000) on the new socket
  deriving DecidableEq

/-- Result of `_process_c_client_registration` restricted to its exact
duplicate branch (websocket_client.py:899-1005, with the `finally` block of
lines 1434-1436 removing the new socket from all pools before control
leaves the handler): either the duplicate branch handled the registration,
or control falls through to the remaining registration logic. -/
inductive RegResult
  | handledDuplicate (st : Pools) (actions : List RegAction)
  | fallthrough
  deriving DecidableEq

/-- The body of the duplicate branch (websocket_client.py:984-1005): a
positive duplicate check acknowledges the connection found by
`find_existing_connection` with `registration_success`, closes the new
socket with the normal code 1000, and returns — upon which the `finally`
cleanup removes the new socket from all pools. -/
def dupBranch (st1 : Pools) (w : Conn) : RegResult :=
  if (checkDuplicateRegistration st1 w).2 then
    match findExistingConnection (checkDuplicateRegistration st1 w).1 w with
    | some e =>
      RegResult.handledDuplicate
        (removeFromAllPools (checkDuplicateRegistration st1 w).1 w)
        [RegAction.ackExisting e.conn_id, RegAction.closeNew 1000]
    | none => RegResult.fallthrough
  else RegResult.fallthrough

/-- The duplicate path of `_process_c_client_registration`: metadata is set
on the new socket `w`; `w` is appended to its node bucket (lines 944-948);
when the username matched no pairing code and the client id is set, the
duplicate branch runs against the updated pools. -/
def processRegistrationDupPath (st : Pools) (w : Conn) (codeMatched : Bool) : RegResult :=
  if codeMatched then RegResult.fallthrough
  else if w.client_id ≠ "" then
    dupBranch
      (if w.node_id ≠ "" then
        { st with node_connections := appendConn st.node_connections w.node_id w }
      else st) w
  else RegResult.fallthrough

/-- The socket identity is new to every bucket of every pool. -/
def freshId (st : Pools) (i : Nat) : Prop :=
  (∀ kb ∈ st.node_connections, ∀ c ∈ kb.2, c.conn_id ≠ i) ∧
  (∀ kb ∈ st.user_connections, ∀ c ∈ kb.2, c.conn_id ≠ i) ∧
  (∀ kb ∈ st.client_connections, ∀ c ∈ kb.2, c.conn_id ≠ i)

/-- No pool entry holds an empty bucket (the registry always deletes
emptied buckets). -/
def noEmptyBuckets (p : Pool) : Prop := ∀ kb ∈ p, kb.2 ≠ []

/-- Helper: appending to a key's bucket appends to its lookup. -/
theorem bucket_appendConn_self (p : Pool) (k : String) (c : Conn) :
    bucket (appendConn p k c) k = bucket p k ++ [c] := by
  induction p with
  | nil => simp [appendConn, bucket]
  | cons kb rest ih =>
    by_cases hk : kb.1 = k
    · simp [appendConn, bucket, hk]
    · simp only [appendConn, bucket, if_neg hk]
      exact ih

/-- Helper: every member of a bucket lives in some entry of the pool. -/
theorem bucket_mem_pool {p : Pool} {k : String} {c : Conn} (h : c ∈ bucket p k) :
    ∃ kb ∈ p, c ∈ kb.2 := by
  induction p with
  | nil => simp [bucket] at h
  | cons kb rest ih =>
    by_cases hk : kb.1 = k
    · rw [bucket, if_pos hk] at h
      exact ⟨kb, List.mem_cons_self kb rest, h⟩
    · rw [bucket, if_neg hk] at h
      rcases ih h with ⟨kb', hkb', hc⟩
      exact ⟨kb', List.mem_cons_of_mem kb hkb', hc⟩

/-- Helper: a bucket scan over connections whose matches are all valid
answers yes without touching the pools, provided a match exists. -/
theorem scanForDup_all_valid (f : Conn → Bool) (b : List Conn) (st : Pools)
    (hex : ∃ c ∈ b, f c = true)
    (hval : ∀ c ∈ b, f c = true → c.valid = true) :
    scanForDup f b st = (st, true) := by
  induction b with
  | nil => simp at hex
  | cons c rest ih =>
    by_cases hf : f c = true
    · have hv := hval c (List.mem_cons_self c rest) hf
      simp [scanForDup, hf, hv]
    · have hex' : ∃ c' ∈ rest, f c' = true := by
        rcases hex with ⟨c', hc', hf'⟩
        rcases List.mem_cons.mp hc' with h | h
        · exact absurd (h ▸ hf') hf
        · exact ⟨c', h, hf'⟩
      simp only [scanForDup, hf]
      simp only [Bool.false_eq_true, if_false]
      exact ih hex' fun c' hc' => hval c' (List.mem_cons_of_mem c hc')

/-- Helper: a satisfying element makes `find?` succeed. -/
theorem find_isSome_of_ex {p : Conn → Bool} {b : List Conn}
    (h : ∃ c ∈ b, p c = true) : (b.find? p).isSome = true := by
  induction b with
  | nil => simp at h
  | cons c rest ih =>
    by_cases hc : p c = true
    · simp [List.find?, hc]
    · rcases h with ⟨c', hc', hp⟩
      rcases List.mem_cons.mp hc' with h1 | h1
      · exact absurd (h1 ▸ hp) hc
      · simp only [List.find?, hc]
        exact ih ⟨c', h1, hp⟩

/-- Helper: a successful search ignores a suffix. -/
theorem find_append_of_isSome {p : Conn → Bool} {b l : List Conn}
    (h : (b.find? p).isSome = true) : (b ++ l).find? p = b.find? p := by
  induction b with
  | nil => simp [List.find?] at h
  | cons c rest ih =>
    by_cases hc : p c = true
    · simp [List.find?, hc]
    · simp only [List.cons_append, List.find?, hc] at *
      exact ih h

/-- Helper: removing an absent connection changes nothing. -/
theorem removeConnPool_not_mem {p : Pool} {c : Conn}
    (h : ∀ kb ∈ p, c ∉ kb.2) : removeConnPool p c = p := by
  induction p with
  | nil => rfl
  | cons kb rest ih =>
    have hm := h kb (List.mem_cons_self kb rest)
    rw [removeConnPool, if_neg hm, ih fun kb' hkb' => h kb' (List.mem_cons_of_mem kb hkb')]

/-- Helper: append-then-remove round-trips on a pool the connection was
absent from, as long as no bucket is empty. -/
theorem removeConnPool_appendConn {p : Pool} {k : String} {c : Conn}
    (habs : ∀ kb ∈ p, c ∉ kb.2) (hne : noEmptyBuckets p) :
    removeConnPool (appendConn p k c) c = p := by
  induction p with
  | nil =>
    simp [appendConn, removeConnPool, List.erase_cons_head]
  | cons kb rest ih =>
    have hm := habs kb (List.mem_cons_self kb rest)
    by_cases hk : kb.1 = k
    · rw [appendConn, if_pos hk, removeConnPool,
        if_pos (List.mem_append.mpr (Or.inr (List.mem_singleton.mpr rfl)))]
      rw [List.erase_append_right _ hm, List.erase_cons_head, List.append_nil]
      rw [if_neg (hne kb (List.mem_cons_self kb rest))]
    · rw [appendConn, if_neg hk, removeConnPool, if_neg hm,
        ih (fun kb' hkb' => habs kb' (List.mem_cons_of_mem kb hkb'))
          (fun kb' hkb' => hne kb' (List.mem_cons_of_mem kb hkb'))]

/-- Helper: a fresh socket identity is a member of no bucket. -/
theorem not_mem_of_fresh {b : List Conn} {w : Conn}
    (h : ∀ x ∈ b, x.conn_id ≠ w.conn_id) : w ∉ b := by
  intro hmem
  exact h w hmem rfl

/-- C7.  Registering the same `(node_id, client_install_id, user_id)`
twice while the first connection is still valid leaves all three registry
indices exactly as they were after the first registration: the duplicate
branch acknowledges the existing socket with success and closes the second
socket with the normal code 1000, and the handler's cleanup removes the
transient node-bucket entry of the second socket. -/
theorem duplicate_registration_idempotent (st : Pools) (w : Conn)
    (hn : w.node_id ≠ "") (hc : w.client_id ≠ "")
    (hfresh : freshId st w.conn_id)
    (hnemp : noEmptyBuckets st.node_connections)
    (hex : ∃ c ∈ bucket st.node_connections w.node_id,
      c.client_id = w.client_id ∧ c.user_id = w.user_id)
    (hval : ∀ c ∈ bucket st.node_connections w.node_id,
      c.client_id = w.client_id → c.user_id = w.user_id → c.valid = true) :
    ∃ e : Conn, processRegistrationDupPath st w false =
      RegResult.handledDuplicate st
        [RegAction.ackExisting e.conn_id, RegAction.closeNew 1000] := by
  have hfree : ∀ c ∈ bucket st.node_connections w.node_id, c.conn_id ≠ w.conn_id := by
    intro c hcm
    rcases bucket_mem_pool hcm with ⟨kb, hkb, hck⟩
    exact hfresh.1 kb hkb c hck
  set stA : Pools :=
    { st with node_connections := appendConn st.node_connections w.node_id w } with hstA
  have hbA : bucket stA.node_connections w.node_id =
      bucket st.node_connections w.node_id ++ [w] :=
    bucket_appendConn_self st.node_connections w.node_id w
  -- the duplicate scan of the node bucket answers yes without state change
  have hexscan : ∃ c ∈ bucket stA.node_connections w.node_id, dupMatchNode w c = true := by
    rcases hex with ⟨c, hcm, hid1, hid2⟩
    refine ⟨c, by rw [hbA]; exact List.mem_append.mpr (Or.inl hcm), ?_⟩
    simp only [dupMatchNode, Bool.and_eq_true]
    exact ⟨⟨by simpa using hfree c hcm, by simpa using hid1⟩, by simpa using hid2⟩
  have hvalscan : ∀ c ∈ bucket stA.node_connections w.node_id,
      dupMatchNode w c = true → c.valid = true := by
    intro c hcm hmatch
    rw [hbA] at hcm
    simp only [dupMatchNode, Bool.and_eq_true, decide_eq_true_eq] at hmatch
    rcases List.mem_append.mp hcm with hcm | hcm
    · exact hval c hcm hmatch.1.2 hmatch.2
    · exfalso
      rw [List.mem_singleton.mp hcm] at hmatch
      exact hmatch.1.1 rfl
  have hscan : scanForDup (dupMatchNode w) (bucket stA.node_connections w.node_id) stA =
      (stA, true) :=
    scanForDup_all_valid _ _ _ hexscan hvalscan
  have hcheck : checkDuplicateRegistration stA w = (stA, true) := by
    simp [checkDuplicateRegistration, hscan]
  -- finding the existing connection succeeds on the original bucket
  have hfsome : ((bucket st.node_connections w.node_id).find?
      (fun c => c.client_id = w.client_id && c.user_id = w.user_id)).isSome = true := by
    apply find_isSome_of_ex
    rcases hex with ⟨c, hcm, hid1, hid2⟩
    exact ⟨c, hcm, by simp [hid1, hid2]⟩
  obtain ⟨e, he⟩ := Option.isSome_iff_exists.mp hfsome
  have hfind : findExistingConnection stA w = some e := by
    unfold findExistingConnection
    rw [hbA, find_append_of_isSome hfsome, he]
  -- the cleanup of the new socket restores the original pools
  have habs : ∀ kb ∈ st.node_connections, w ∉ kb.2 := by
    intro kb hkb
    exact not_mem_of_fresh fun x hx => hfresh.1 kb hkb x hx
  have hrem : removeFromAllPools stA w = st := by
    have h1 : removeConnPool stA.node_connections w = st.node_connections :=
      removeConnPool_appendConn habs hnemp
    have h2 : removeConnPool stA.user_connections w = st.user_connections :=
      removeConnPool_not_mem fun kb hkb =>
        not_mem_of_fresh fun x hx => hfresh.2.1 kb hkb x hx
    have h3 : removeConnPool stA.client_connections w = st.client_connections :=
      removeConnPool_not_mem fun kb hkb =>
        not_mem_of_fresh fun x hx => hfresh.2.2 kb hkb x hx
    show Pools.mk _ _ _ = st
    rw [h1, h2, h3]
  refine ⟨e, ?_⟩
  have hstep : processRegistrationDupPath st w false = dupBranch stA w := by
    unfold processRegistrationDupPath
    rw [if_neg (by simp : ¬(false = true)), if_pos hc, if_pos hn]
  rw [hstep]
  unfold dupBranch
  rw [hcheck]
  simp only [hfind]
  rw [hrem]
  simp

/-- Witness for `duplicate_registration_idempotent`: a registry holding one
valid session `(n1, c1, u1)` receiving a second registration of the same
triple on a fresh socket. -/
theorem duplicate_registration_idempotent_witness :
    ∃ e : Conn, processRegistrationDupPath
        ⟨[("n1", [⟨1, "n1", "c1", "u1", true⟩])],
          [("u1", [⟨1, "n1", "c1", "u1", true⟩])],
          [("c1", [⟨1, "n1", "c1", "u1", true⟩])]⟩
        ⟨2, "n1", "c1", "u1", true⟩ false =
      RegResult.handledDuplicate
        ⟨[("n1", [⟨1, "n1", "c1", "u1", true⟩])],
          [("u1", [⟨1, "n1", "c1", "u1", true⟩])],
          [("c1", [⟨1, "n1", "c1", "u1", true⟩])]⟩
        [RegAction.ackExisting e.conn_id, RegAction.closeNew 1000] :=
  duplicate_registration_idempotent
    ⟨[("n1", [⟨1, "n1", "c1", "u1", true⟩])],
      [("u1", [⟨1, "n1", "c1", "u1", true⟩])],
      [("c1", [⟨1, "n1", "c1", "u1", true⟩])]⟩
    ⟨2, "n1", "c1", "u1", true⟩
    (by decide) (by decide) (by unfold freshId; decide) (by unfold noEmptyBuckets; decide)
    (by decide) (by decide)

end Registry

namespace Logout

/-- Mutable per-socket flags consulted by `is_connection_valid`
(websocket_client.py:2373-2436): the two barrier flags, the logout-closed
marker, and whether the underlying transport is still usable (summarising
the `closed`/`state`/`close_code` checks). -/
structure ConnFlags where
  logout_in_progress : Bool
  feedback_tracking : Bool
  closed_by_logout : Bool
  transport_ok : Bool
  deriving DecidableEq

/-- Socket metadata, untouched along the logout path. -/
structure ConnMeta where
  user_id : String
  client_id : String
  node_id : String
  deriving DecidableEq

/-- A registry pool of socket identities. -/
abbrev IdPool := List (String × List Nat)

/-- Coordinator state touched by a logout: the three registry indices
share socket identities whose flags live in one table; `accounts` holds
the `user_accounts` rows as (user_id, logout) and `cookies` the
`user_cookies` rows as (user_id, blob). -/
structure St where
  node_pool : IdPool
  user_pool : IdPool
  client_pool : IdPool
  meta : Nat → ConnMeta
  flags : Nat → ConnFlags
  accounts : List (String × Bool)
  cookies : List (String × String)

/-- `is_connection_valid` (websocket_client.py:2373-2436), in its
load-bearing order: logout-in-progress and feedback-tracking keep the
session visible, the closed-by-logout marker invalidates it, otherwise the
transport decides. -/
def isConnValid (f : ConnFlags) : Bool :=
  if f.logout_in_progress then true
  else if f.feedback_tracking then true
  else if f.closed_by_logout then false
  else f.transport_ok

/-- The bucket of a key in a pool of identities. -/
def idBucket (p : IdPool) (k : String) : List Nat :=
  match p with
  | [] => []
  | (k', b) :: rest => if k' = k then b else idBucket rest k

/-- `_delete_user_data` (bind_routes.py:286-293): delete the user's cookie
rows and set `logout = True` on every account row of the user. -/
def deleteUserData (st : St) (u : String) : St :=
  { st with
    cookies := st.cookies.filter fun r => r.1 ≠ u,
    accounts := st.accounts.map fun r => if r.1 = u then (r.1, true) else r }

/-- Flag table update applied to a list of targeted sockets. -/
def setFlag (flags : Nat → ConnFlags) (ids : List Nat)
    (upd : ConnFlags → ConnFlags) : Nat → ConnFlags :=
  fun i => if i ∈ ids then upd (flags i) else flags i

/-- The four flag phases of `send_message_to_user_with_feedback`
(websocket_client.py:2875-2932) on the targeted sockets, in source order:
mark logout-in-progress before the send; mark closed-by-logout and drop
the in-progress marker after the send; install feedback tracking for the
wait; clear the tracking when the barrier finishes — whether every ack
arrived or the 10-second timeout elapsed. -/
def barrierFlagSequence (flags : Nat → ConnFlags) (ids : List Nat) : Nat → ConnFlags :=
  setFlag
    (setFlag
      (setFlag
        (setFlag flags ids fun f => { f with logout_in_progress := true })
        ids fun f => { f with closed_by_logout := true, logout_in_progress := false })
      ids fun f => { f with feedback_tracking := true })
    ids fun f => { f with feedback_tracking := false }

/-- `send_message_to_user_with_feedback` for a whole-user logout
(websocket_client.py:2838-2943): the targets are the user's connections
that pass a fresh (uncached) validity check; with no target the barrier
returns at once, otherwise the flag phases run over the targets.  The
registry indices themselves are not modified here. -/
def sendLogoutBarrier (st : St) (u : String) : St :=
  let valid := (idBucket st.user_pool u).filter fun i => isConnValid (st.flags i)
  if valid = [] then st
  else { st with flags := barrierFlagSequence st.flags valid }

/-- `_notify_c_client_logout` (bind_routes.py:296-332): with no valid
connection for the user nothing is sent; otherwise `notify_user_logout`
drives the barrier. -/
def notifyCClientLogout (st : St) (u : String) : St :=
  let active := (idBucket st.user_pool u).filter fun i => isConnValid (st.flags i)
  if active = [] then st
  else sendLogoutBarrier st u

/-- `cleanup_invalid_connections` on one pool
(websocket_client.py:2438-2477): drop every invalid connection from every
bucket and delete buckets left empty. -/
def cleanupPool (p : IdPool) (flags : Nat → ConnFlags) : IdPool :=
  (p.map fun kb => (kb.1, kb.2.filter fun i => isConnValid (flags i))).filter
    fun kb => kb.2 ≠ []

/-- `cleanup_invalid_connections` over the three indices. -/
def cleanupInvalidConnections (st : St) : St :=
  { st with
    node_pool := cleanupPool st.node_pool st.flags,
    user_pool := cleanupPool st.user_pool st.flags,
    client_pool := cleanupPool st.client_pool st.flags }

/-- `_handle_logout_request` for a whole-user logout
(bind_routes.py:744-775): mark the credential store and drop the cookies,
run the notification barrier, then clean every invalid connection out of
the indices (the direct pool cleanup of step 3 is commented out in the
source; the cache cleanup of step 4 touches no registry state). -/
def handleLogoutRequest (st : St) (u : String) : St :=
  cleanupInvalidConnections (notifyCClientLogout (deleteUserData st u) u)

/-- Every session of the user found in any index is also recorded in the
user index's bucket for that user — the well-formedness the registration
path maintains. -/
def userIndexComplete (st : St) (u : String) : Prop :=
  (∀ kb ∈ st.node_pool, ∀ i ∈ kb.2,
    (st.meta i).user_id = u → i ∈ idBucket st.user_pool u) ∧
  (∀ kb ∈ st.user_pool, ∀ i ∈ kb.2,
    (st.meta i).user_id = u → i ∈ idBucket st.user_pool u) ∧
  (∀ kb ∈ st.client_pool, ∀ i ∈ kb.2,
    (st.meta i).user_id = u → i ∈ idBucket st.user_pool u)

/-- Helper: the net effect of the barrier's flag phases on a targeted
socket — closed by logout, with both transient markers cleared. -/
theorem barrierFlagSequence_mem (flags : Nat → ConnFlags) (ids : List Nat)
    {i : Nat} (h : i ∈ ids) :
    barrierFlagSequence flags ids i =
      ⟨false, false, true, (flags i).transport_ok⟩ := by
  simp [barrierFlagSequence, setFlag, h]

/-- Helper: an untargeted socket keeps its flags. -/
theorem barrierFlagSequence_not_mem (flags : Nat → ConnFlags) (ids : List Nat)
    {i : Nat} (h : i ∉ ids) : barrierFlagSequence flags ids i = flags i := by
  simp [barrierFlagSequence, setFlag, h]

/-- Helper: a survivor of the pool cleanup was a valid member of the
original pool. -/
theorem cleanupPool_mem {p : IdPool} {flags : Nat → ConnFlags}
    {kb : String × List Nat} {i : Nat}
    (hkb : kb ∈ cleanupPool p flags) (hi : i ∈ kb.2) :
    isConnValid (flags i) = true := by
  rcases List.mem_filter.mp hkb with ⟨hmap, _⟩
  rcases List.mem_map.mp hmap with ⟨kb0, _, hkb0⟩
  rw [← hkb0] at hi
  exact (List.mem_filter.mp hi).2

/-- Helper: after the whole-user barrier, every socket recorded in the
user's bucket fails the validity check. -/
theorem barrier_invalidates_user_bucket (st : St) (u : String) :
    ∀ i ∈ idBucket st.user_pool u,
      isConnValid ((notifyCClientLogout st u).flags i) = false := by
  intro i hi
  set valid := (idBucket st.user_pool u).filter fun j => isConnValid (st.flags j) with hv
  by_cases hempty : valid = []
  · have hnot : isConnValid (st.flags i) = false := by
      by_contra hcon
      have : i ∈ valid := by
        rw [hv]
        exact List.mem_filter.mpr ⟨hi, by
          cases hval : isConnValid (st.flags i)
          · exact absurd hval hcon
          · simp⟩
      rw [hempty] at this
      simp at this
    have hst : notifyCClientLogout st u = st := by
      unfold notifyCClientLogout
      rw [← hv, if_pos hempty]
    rw [hst]
    exact hnot
  · have hst : (notifyCClientLogout st u).flags = barrierFlagSequence st.flags valid := by
      unfold notifyCClientLogout sendLogoutBarrier
      rw [← hv, if_neg hempty, if_neg hempty]
    rw [hst]
    by_cases hmem : i ∈ valid
    · rw [barrierFlagSequence_mem st.flags valid hmem]
      rfl
    · rw [barrierFlagSequence_not_mem st.flags valid hmem]
      by_cases hval : isConnValid (st.flags i) = true
      · exfalso
        exact hmem (by
          rw [hv]
          exact List.mem_filter.mpr ⟨hi, by simpa using hval⟩)
      · simpa using hval

/-- C3.  After a whole-user logout returns — the barrier having collected
all acks or hit its 10-second timeout — no live session of the user
remains in any of the three registry indices, and every credential-store
account row of the user carries the `logged_out` flag. -/
theorem logout_clears_user_sessions (st : St) (u : String)
    (hwf : userIndexComplete st u) :
    (∀ r ∈ (handleLogoutRequest st u).accounts, r.1 = u → r.2 = true) ∧
    (∀ kb ∈ (handleLogoutRequest st u).node_pool, ∀ i ∈ kb.2,
      ¬(((handleLogoutRequest st u).meta i).user_id = u ∧
        isConnValid ((handleLogoutRequest st u).flags i) = true)) ∧
    (∀ kb ∈ (handleLogoutRequest st u).user_pool, ∀ i ∈ kb.2,
      ¬(((handleLogoutRequest st u).meta i).user_id = u ∧
        isConnValid ((handleLogoutRequest st u).flags i) = true)) ∧
    (∀ kb ∈ (handleLogoutRequest st u).client_pool, ∀ i ∈ kb.2,
      ¬(((handleLogoutRequest st u).meta i).user_id = u ∧
        isConnValid ((handleLogoutRequest st u).flags i) = true)) := by
  set st1 := deleteUserData st u with hst1
  set st2 := notifyCClientLogout st1 u with hst2
  have hmeta1 : st1.meta = st.meta := rfl
  have hpools1 : st1.user_pool = st.user_pool ∧ st1.node_pool = st.node_pool ∧
      st1.client_pool = st.client_pool := ⟨rfl, rfl, rfl⟩
  have hmeta2 : st2.meta = st.meta := by
    rw [hst2]
    unfold notifyCClientLogout sendLogoutBarrier
    by_cases h : ((idBucket st1.user_pool u).filter
        fun i => isConnValid (st1.flags i)) = [] <;> simp [h] <;> exact hmeta1
  have hpools2 : st2.user_pool = st.user_pool ∧ st2.node_pool = st.node_pool ∧
      st2.client_pool = st.client_pool := by
    rw [hst2]
    unfold notifyCClientLogout sendLogoutBarrier
    by_cases h : ((idBucket st1.user_pool u).filter
        fun i => isConnValid (st1.flags i)) = [] <;> simp [h] <;> exact hpools1.1 ▸ ⟨rfl, rfl, rfl⟩
  have hinv : ∀ i ∈ idBucket st.user_pool u, isConnValid (st2.flags i) = false := by
    intro i hi
    rw [hst2]
    exact barrier_invalidates_user_bucket st1 u i (by rw [hpools1.1]; exact hi)
  have hfinal : handleLogoutRequest st u = cleanupInvalidConnections st2 := rfl
  constructor
  · intro r hr hru
    rw [hfinal] at hr
    have hr2 : r ∈ st2.accounts := hr
    have hacc2 : st2.accounts = st1.accounts := by
      rw [hst2]
      unfold notifyCClientLogout sendLogoutBarrier
      by_cases h : ((idBucket st1.user_pool u).filter
          fun i => isConnValid (st1.flags i)) = [] <;> simp [h]
    rw [hacc2] at hr2
    rcases List.mem_map.mp hr2 with ⟨r0, _, hr0⟩
    by_cases h0 : r0.1 = u
    · rw [if_pos h0] at hr0
      rw [← hr0]
    · rw [if_neg h0] at hr0
      rw [← hr0] at hru
      exact absurd hru h0
  · refine ⟨?_, ?_, ?_⟩ <;> intro kb hkb i hi hcon
    · have hvalid : isConnValid (st2.flags i) = true := cleanupPool_mem hkb hi
      have hiu : i ∈ idBucket st.user_pool u := by
        have hm : kb ∈ cleanupPool st2.node_pool st2.flags := hkb
        rcases List.mem_filter.mp hm with ⟨hmap, _⟩
        rcases List.mem_map.mp hmap with ⟨kb0, hkb0, hkb0e⟩
        rw [← hkb0e] at hi
        have hi0 : i ∈ kb0.2 := (List.mem_filter.mp hi).1
        have hkbn : kb0 ∈ st.node_pool := by
          rw [← hpools2.2.1]
          exact hkb0
        exact hwf.1 kb0 hkbn i hi0 (by
          have := hcon.1
          rwa [show (handleLogoutRequest st u).meta = st.meta from hmeta2] at this)
      rw [hinv i hiu] at hvalid
      cases hvalid
    · have hvalid : isConnValid (st2.flags i) = true := cleanupPool_mem hkb hi
      have hiu : i ∈ idBucket st.user_pool u := by
        have hm : kb ∈ cleanupPool st2.user_pool st2.flags := hkb
        rcases List.mem_filter.mp hm with ⟨hmap, _⟩
        rcases List.mem_map.mp hmap with ⟨kb0, hkb0, hkb0e⟩
        rw [← hkb0e] at hi
        have hi0 : i ∈ kb0.2 := (List.mem_filter.mp hi).1
        have hkbn : kb0 ∈ st.user_pool := by
          rw [← hpools2.1]
          exact hkb0
        exact hwf.2.1 kb0 hkbn i hi0 (by
          have := hcon.1
          rwa [show (handleLogoutRequest st u).meta = st.meta from hmeta2] at this)
      rw [hinv i hiu] at hvalid
      cases hvalid
    · have hvalid : isConnValid (st2.flags i) = true := cleanupPool_mem hkb hi
      have hiu : i ∈ idBucket st.user_pool u := by
        have hm : kb ∈ cleanupPool st2.client_pool st2.flags := hkb
        rcases List.mem_filter.mp hm with ⟨hmap, _⟩
        rcases List.mem_map.mp hmap with ⟨kb0, hkb0, hkb0e⟩
        rw [← hkb0e] at hi
        have hi0 : i ∈ kb0.2 := (List.mem_filter.mp hi).1
        have hkbn : kb0 ∈ st.client_pool := by
          rw [← hpools2.2.2]
          exact hkb0
        exact hwf.2.2 kb0 hkbn i hi0 (by
          have := hcon.1
          rwa [show (handleLogoutRequest st u).meta = st.meta from hmeta2] at this)
      rw [hinv i hiu] at hvalid
      cases hvalid

/-- A one-session registry for the logout witness: socket 1 belongs to
user `u1`, lives in all three indices, has a healthy transport and no
logout flags, and the user's account row is not yet logged out. -/
def logoutWitnessState : St :=
  ⟨[("n1", [1])], [("u1", [1])], [("c1", [1])],
    fun _ => ⟨"u1", "c1", "n1"⟩, fun _ => ⟨false, false, false, true⟩,
    [("u1", false)], [("u1", "blob")]⟩

/-- Witness for `logout_clears_user_sessions` at the one-session state. -/
theorem logout_clears_user_sessions_witness :
    (∀ r ∈ (handleLogoutRequest logoutWitnessState "u1").accounts,
      r.1 = "u1" → r.2 = true) ∧
    (∀ kb ∈ (handleLogoutRequest logoutWitnessState "u1").node_pool, ∀ i ∈ kb.2,
      ¬(((handleLogoutRequest logoutWitnessState "u1").meta i).user_id = "u1" ∧
        isConnValid ((handleLogoutRequest logoutWitnessState "u1").flags i) = true)) ∧
    (∀ kb ∈ (handleLogoutRequest logoutWitnessState "u1").user_pool, ∀ i ∈ kb.2,
      ¬(((handleLogoutRequest logoutWitnessState "u1").meta i).user_id = "u1" ∧
        isConnValid ((handleLogoutRequest logoutWitnessState "u1").flags i) = true)) ∧
    (∀ kb ∈ (handleLogoutRequest logoutWitnessState "u1").client_pool, ∀ i ∈ kb.2,
      ¬(((handleLogoutRequest logoutWitnessState "u1").meta i).user_id = "u1" ∧
        isConnValid ((handleLogoutRequest logoutWitnessState "u1").flags i) = true)) :=
  logout_clears_user_sessions logoutWitnessState "u1"
    (by unfold userIndexComplete logoutWitnessState; decide)

end Logout
